import Mathlib

/-!
# Wallet approval report (`src/api/getApprovals.js`)

A shallow embedding of the `handler` function: the callback of `items.map`
(lines 41-74), the score, risk level and tips computed from its result (lines
76-91), and the request handling around them (lines 1-37 and 86-95), with the
environment, the query and the outcome of the upstream call as inputs.

The JavaScript values that flow through the handler are the values obtained
from `JSON.parse` plus `undefined`, the result of reading a property that is
not there.  The language primitives the handler relies on (`?.`, `||`, `??`,
`String`, `toLowerCase`, `includes`) are modelled after ECMAScript:

* text is a Lean `String`;
* `toLowerCase` is modelled on the letters `A`-`Z`; no code point outside
  ASCII has a lower-case form that contains `i`, `n` and `f` next to each
  other or equals `∞`, so the flag test of line 57 is not affected;
* a number is kept in the decimal form `Number::toString` is defined from;
* a property read returns the last binding of the key, as `JSON.parse` does
  for duplicate keys; the property names read by the handler are not defined
  on any built-in prototype, so reading them from a string, number, boolean
  or array gives `undefined`.
-/

namespace GetApprovals

/-! ## JavaScript values -/

/-- A number as `JSON.parse` can return it: a zero, an infinity (from a literal
such as `1e999`), or a finite non-zero value `± s × 10 ^ (n - k)`, where `s > 0`
is the shortest digit string that identifies the value and `k` its length. -/
inductive JNum where
  | zero (neg : Bool)
  | inf (neg : Bool)
  | fin (neg : Bool) (s : Nat) (n : Int)
  deriving DecidableEq, Repr

/-- A JavaScript value: a parsed JSON value, or `undefined`. An object is the
list of its entries in source order. -/
inductive Val where
  | undefined
  | null
  | bool (b : Bool)
  | num (n : JNum)
  | str (s : String)
  | arr (xs : List Val)
  | obj (kvs : List (String × Val))

/-- The exception a JavaScript operation can throw here. -/
inductive JsError where
  | typeError (msg : String)
  deriving DecidableEq, Repr

/-- Test `v === undefined || v === null`. -/
def Val.isNullish : Val → Bool
  | .undefined => true
  | .null => true
  | _ => false

/-- Test `typeof v === "string"`. -/
def Val.isString : Val → Bool
  | .str _ => true
  | _ => false

/-- ToBoolean: `undefined`, `null`, `false`, `0`, `-0` and `""` are falsy. -/
def truthy : Val → Bool
  | .undefined => false
  | .null => false
  | .bool b => b
  | .num (.zero _) => false
  | .num _ => true
  | .str s => s.data.length != 0
  | .arr _ => true
  | .obj _ => true

/-- Own-property test on a list of entries. -/
def hasOwn (k : String) (kvs : List (String × Val)) : Bool :=
  kvs.any (fun p => p.1 == k)

/-- The value bound to `k` in a list of entries, the last binding winning;
`undefined` when there is none. -/
def lookup (k : String) : List (String × Val) → Val
  | [] => .undefined
  | (k', v) :: rest =>
    if hasOwn k rest then lookup k rest else if k' = k then v else .undefined

/-- Property read `v.k` for a `v` that is neither `undefined` nor `null`. -/
def prop (v : Val) (k : String) : Val :=
  match v with
  | .obj kvs => lookup k kvs
  | _ => .undefined

/-- Optional chaining `v?.k`. -/
def optGet (v : Val) (k : String) : Val :=
  if v.isNullish then .undefined else prop v k

/-- Logical or `a || b`. -/
def jsOr (a b : Val) : Val :=
  if truthy a then a else b

/-- Nullish coalescing `a ?? b`. -/
def jsCoalesce (a b : Val) : Val :=
  if a.isNullish then b else a

/-! ## `String(v)` -/

/-- Number::toString for a finite non-zero magnitude `s × 10 ^ (n - k)`. -/
def finToString (s : Nat) (n : Int) : String :=
  let ds := Nat.toDigits 10 s
  let k : Int := ds.length
  if k ≤ n ∧ n ≤ 21 then
    String.mk (ds ++ List.replicate (n - k).toNat '0')
  else if 0 < n ∧ n ≤ 21 then
    String.mk (ds.take n.toNat ++ '.' :: ds.drop n.toNat)
  else if -6 < n ∧ n ≤ 0 then
    String.mk ('0' :: '.' :: (List.replicate (-n).toNat '0' ++ ds))
  else
    let e := n - 1
    let es := (if e < 0 then "-" else "+") ++ String.mk (Nat.toDigits 10 e.natAbs)
    if k = 1 then String.mk ds ++ "e" ++ es
    else String.mk (ds.take 1 ++ '.' :: ds.drop 1) ++ "e" ++ es

/-- Number::toString (radix 10). -/
def numToString : JNum → String
  | .zero _ => "0"
  | .inf neg => (if neg then "-" else "") ++ "Infinity"
  | .fin neg s n => (if neg then "-" else "") ++ finToString s n

/-- The message of the `TypeError` of OrdinaryToPrimitive. -/
def noPrimitive : JsError :=
  .typeError "Cannot convert object to primitive value"

mutual
/-- The call `String(v)`, that is ToString. An array is joined with `,` by
`Array.prototype.toString`. A plain object gives `[object Object]` through
`Object.prototype.toString`, unless it has an own property `toString`: a value
from JSON is never callable, so OrdinaryToPrimitive skips it, gets the object
itself back from `valueOf` (or skips an own `valueOf` too) and throws. -/
def jsString : Val → Except JsError String
  | .undefined => .ok "undefined"
  | .null => .ok "null"
  | .bool b => .ok (if b then "true" else "false")
  | .num n => .ok (numToString n)
  | .str s => .ok s
  | .arr xs => jsJoin xs
  | .obj kvs => if hasOwn "toString" kvs then .error noPrimitive else .ok "[object Object]"
/-- The method `Array.prototype.join` with the separator `,`: an element that is
`undefined` or `null` contributes the empty string. -/
def jsJoin : List Val → Except JsError String
  | [] => .ok ""
  | x :: rest =>
    match (if x.isNullish then .ok "" else jsString x), jsJoin rest with
    | .ok a, .ok b => .ok (if rest.isEmpty then a else a ++ "," ++ b)
    | .error e, _ => .error e
    | .ok _, .error e => .error e
end

mutual
/-- Whether `String(v)` returns: no object with an own `toString` entry is
reached, directly or through array elements. -/
def printable : Val → Bool
  | .arr xs => printableAll xs
  | .obj kvs => !hasOwn "toString" kvs
  | _ => true
/-- Whether every element that `join` converts is printable. -/
def printableAll : List Val → Bool
  | [] => true
  | x :: rest => (x.isNullish || printable x) && printableAll rest
end

/-! ## Text primitives -/

/-- The method call `s.toLowerCase()`. -/
def toLowerCase (s : String) : String :=
  String.mk (s.data.map Char.toLower)

/-- Whether `p` is a prefix of `s`. -/
def startsWith : List Char → List Char → Bool
  | _, [] => true
  | [], _ :: _ => false
  | c :: s, d :: p => c == d && startsWith s p

/-- Whether `p` occurs in `s` as a run of consecutive characters. -/
def occursIn : List Char → List Char → Bool
  | [], p => p.isEmpty
  | c :: s, p => startsWith (c :: s) p || occursIn s p

/-- The method call `s.includes(t)`. -/
def includes (s t : String) : Bool :=
  occursIn s.data t.data

/-! ## The normalizer (lines 41-74) -/

/-- The canonical record built at lines 64-73. -/
structure Approval where
  token : Val
  spender : Val
  allowance : String
  symbol : Val
  verified : String
  lastUpdated : Val
  flags : Val
  risk : String

/-- Line 42. -/
def token (x : Val) : Val :=
  jsOr (jsOr (jsOr (optGet (optGet x "token") "address") (optGet x "token_address"))
    (optGet x "tokenAddress")) (.str "")

/-- Line 43. -/
def spender (x : Val) : Val :=
  jsOr (jsOr (jsOr (optGet (optGet x "spender") "address") (optGet x "spender_address"))
    (optGet x "spenderAddress")) (.str "")

/-- Line 44. -/
def symbol (x : Val) : Val :=
  jsOr (jsOr (optGet (optGet x "token") "symbol") (optGet x "token_symbol")) (.str "—")

/-- The argument of `String` at line 47. -/
def allowanceSource (x : Val) : Val :=
  jsCoalesce (jsCoalesce (jsCoalesce (optGet x "allowance") (optGet x "value"))
    (optGet x "amount")) (.str "0")

/-- Line 47. -/
def allowance (x : Val) : Except JsError String :=
  jsString (allowanceSource x)

/-- Line 51. -/
def verified : String := "—"

/-- Line 52. -/
def lastUpdated (x : Val) : Val :=
  jsOr (jsOr (jsOr (optGet x "block_timestamp") (optGet x "updated_at"))
    (optGet x "blockTime")) (.str "—")

/-- The condition of line 57 on the lower-cased allowance text. -/
def isInfinite (alw : String) : Bool :=
  alw == "infinite" || alw == "∞" || includes alw "inf"

/-- Lines 55-57: the flags collected for an allowance text. -/
def flagsArr (allowance : String) : List String :=
  let alw := toLowerCase allowance
  if isInfinite alw then [] ++ ["infinite"] else []

/-- Lines 60-62. -/
def risk (flagsArr : List String) : String :=
  if flagsArr.contains "infinite" then "High" else "Low"

/-- Line 71. -/
def flags (flagsArr : List String) : Val :=
  if flagsArr.length != 0 then .arr (flagsArr.map .str) else .str "—"

/-- The callback of `items.map` (lines 41-74). -/
def normalize (x : Val) : Except JsError Approval :=
  match allowance x with
  | .error e => .error e
  | .ok a =>
    .ok { token := token x
          spender := spender x
          allowance := a
          symbol := symbol x
          verified := verified
          lastUpdated := lastUpdated x
          flags := flags (flagsArr a)
          risk := risk (flagsArr a) }

/-- Line 41: `items.map(...)`; the first callback that throws ends the map. -/
def approvals : List Val → Except JsError (List Approval)
  | [] => .ok []
  | x :: rest =>
    match normalize x with
    | .error e => .error e
    | .ok a =>
      match approvals rest with
      | .error e => .error e
      | .ok as => .ok (a :: as)

/-! ## The scorer (lines 76-91) -/

/-- The response body of lines 86-91. -/
structure Report where
  score : Int
  riskLevel : String
  tips : List String
  approvals : List Approval

/-- The predicate of the filter at line 78; `String` of a string is the string. -/
def isHigh (a : Approval) : Bool :=
  includes (toLowerCase a.risk) "high"

/-- Line 78. -/
def high (approvals : List Approval) : Nat :=
  (approvals.filter isHigh).length

/-- Lines 77 and 79. -/
def score (high : Nat) : Int :=
  max 0 (100 - (high : Int) * 15)

/-- Line 81. -/
def riskLevel (score : Int) : String :=
  if score ≥ 80 then "Low" else if score ≥ 50 then "Medium" else "High"

/-- Lines 82-84. -/
def tips (high : Nat) : List String :=
  if high != 0 then [] ++ ["Revoke high-risk approvals first (" ++ String.mk (Nat.toDigits 10 high) ++ ")."]
  else [] ++ ["No major red flags detected. Keep monitoring regularly."]

/-- Lines 76-91: the report built from the normalized approvals. -/
def summarize (approvals : List Approval) : Report :=
  { score := score (high approvals)
    riskLevel := riskLevel (score (high approvals))
    tips := tips (high approvals)
    approvals := approvals }

/-- Lines 41-91: the report for a list of raw records. -/
def report (items : List Val) : Except JsError Report :=
  match approvals items with
  | .error e => .error e
  | .ok as => .ok (summarize as)

/-! ## Reference definitions for the field resolution rules -/

/-- Whether the record `x` is an object that has a field named `k`. -/
def hasField (x : Val) (k : String) : Bool :=
  match x with
  | .obj kvs => hasOwn k kvs
  | _ => false

/-- Whether a property read found something. -/
def Val.isPresent : Val → Bool
  | .undefined => false
  | _ => true

/-- First-match-wins over presence: the first value that is present, else `d`. -/
def firstPresent (d : Val) : List Val → Val
  | [] => d
  | v :: rest => if v.isPresent then v else firstPresent d rest

/-- The first value that is truthy, else `d`. -/
def firstTruthy (d : Val) : List Val → Val
  | [] => d
  | v :: rest => if truthy v then v else firstTruthy d rest

/-- The first value that is present and not `null`, else `d`. -/
def firstNonNull (d : Val) : List Val → Val
  | [] => d
  | v :: rest => if v.isNullish then firstNonNull d rest else v

/-- The values read for the token address, in priority order. -/
def tokenFields (x : Val) : List Val :=
  [optGet (optGet x "token") "address", optGet x "token_address", optGet x "tokenAddress"]

/-- The values read for the spender address, in priority order. -/
def spenderFields (x : Val) : List Val :=
  [optGet (optGet x "spender") "address", optGet x "spender_address", optGet x "spenderAddress"]

/-- The values read for the symbol, in priority order. -/
def symbolFields (x : Val) : List Val :=
  [optGet (optGet x "token") "symbol", optGet x "token_symbol"]

/-- The values read for the allowance, in priority order. -/
def allowanceFields (x : Val) : List Val :=
  [optGet x "allowance", optGet x "value", optGet x "amount"]

/-- The values read for the last update, in priority order. -/
def lastUpdatedFields (x : Val) : List Val :=
  [optGet x "block_timestamp", optGet x "updated_at", optGet x "blockTime"]

/-- The field names of the upstream record that the normalizer reads. -/
def recognizedFields : List String :=
  ["token", "token_address", "tokenAddress", "spender", "spender_address", "spenderAddress",
   "token_symbol", "allowance", "value", "amount", "block_timestamp", "updated_at", "blockTime"]

/-- The Approval of a record without any recognized field. -/
def defaultApproval : Approval :=
  { token := .str ""
    spender := .str ""
    allowance := "0"
    symbol := .str "—"
    verified := "—"
    lastUpdated := .str "—"
    flags := .str "—"
    risk := "Low" }

/-- A record whose allowance cannot be converted to text. -/
def unprintableRecord : Val :=
  .obj [("token_address", .str "0xA"), ("allowance", .obj [("toString", .num (.fin false 1 1))])]

/-- A record that normalizes. -/
def plainRecord : Val :=
  .obj [("token_address", .str "0xA"), ("spender_address", .str "0xB"), ("allowance", .str "1000")]

/-- A record whose first token field is the empty string. -/
def emptyTokenRecord : Val :=
  .obj [("token_address", .str ""), ("tokenAddress", .str "0xA"),
        ("spender_address", .str "0xB"), ("allowance", .str "1000")]

/-- A record whose allowance is the number 0 next to other amounts. -/
def zeroAllowanceRecord : Val :=
  .obj [("allowance", .num (.zero false)), ("value", .str "infinite"), ("amount", .str "7")]

/-- A record whose timestamp is the number 1700000000. -/
def timestampRecord : Val :=
  .obj [("token", .obj [("address", .str "0xA"), ("symbol", .str "FOO")]),
        ("spender", .obj [("address", .str "0xB")]),
        ("allowance", .str "1000"),
        ("block_timestamp", .num (.fin false 17 10))]

/-- A record whose symbol is the number 7 and whose `updated_at` is `true`. -/
def looseRecord : Val :=
  .obj [("token_address", .str "0xA"), ("token_symbol", .num (.fin false 7 1)),
        ("value", .str "5"), ("updated_at", .bool true)]

/-- A record whose allowance is spelled `INF`. -/
def infRecord : Val :=
  .obj [("token_address", .str "0xA"), ("spender_address", .str "0xB"), ("value", .str "INF")]

/-- Two infinite approvals and one bounded approval. -/
def mixedItems : List Val :=
  [infRecord, plainRecord, .obj [("allowance", .str "Infinite")]]

/-! ## The request handler (lines 1-37 and 86-95) -/

/-- Test `Array.isArray(v)`. -/
def Val.isArray : Val → Bool
  | .arr _ => true
  | _ => false

/-- Line 37: the list that is normalized. -/
def items (data : Val) : List Val :=
  match optGet data "result" with
  | .arr xs => xs
  | _ =>
    match data with
    | .arr xs => xs
    | _ => []

/-- An Error object that was thrown: its `name` and its `message`. -/
structure Thrown where
  name : String
  message : String

/-- The Error object of an exception raised by the normalizer. -/
def JsError.toThrown : JsError → Thrown
  | .typeError msg => { name := "TypeError", message := msg }

/-- Line 94: `String(e?.message || e)`; for an empty message
`Error.prototype.toString` returns the name. -/
def catchMessage (e : Thrown) : String :=
  if e.message.data.length != 0 then e.message else e.name

/-- What the upstream call of lines 22-34 does: `fetch` rejects; or the
response is not ok, with its status and the outcome of `r.text()` (`none` when
it rejects); or the response is ok and `r.json()` rejects; or the response is
ok and `r.json()` gives a value. -/
inductive Upstream where
  | rejected (e : Thrown)
  | notOk (status : Nat) (text : Option String)
  | badBody (e : Thrown)
  | ok (data : Val)

/-- Whether the upstream call failed. -/
def Upstream.failed : Upstream → Bool
  | .ok _ => false
  | _ => true

/-- A value of a response body; `units` is a text given by its UTF-16 code
units. -/
inductive Field where
  | text (s : String)
  | units (l : List Nat)
  | number (n : Int)
  | texts (l : List String)
  | records (l : List Approval)

/-- The answer `res.status(status).json(body)`, the body as its entries. -/
structure Response where
  status : Nat
  body : List (String × Field)

/-- Whether the response body has an entry named `k`. -/
def Response.hasKey (r : Response) (k : String) : Bool :=
  r.body.any (fun p => p.1 == k)

/-- The query of the request; a parameter that was not passed is `none`. -/
structure Query where
  net : Option String
  address : Option String

/-- The character class `[a-fA-F0-9]`. -/
def isHexDigit (c : Char) : Bool :=
  ('a' ≤ c && c ≤ 'f') || ('A' ≤ c && c ≤ 'F') || ('0' ≤ c && c ≤ '9')

/-- Line 5: the test of the pattern `^0x[a-fA-F0-9]{40}$`. -/
def validAddress (address : String) : Bool :=
  match address.data with
  | '0' :: 'x' :: rest => rest.length == 40 && rest.all isHexDigit
  | _ => false

/-- Lines 15-18. -/
def chain (net : String) : String :=
  if net = "eth" then "eth" else if net = "polygon" then "polygon" else "bsc"

/-- Line 21. -/
def url (address chain : String) : String :=
  "https://deep-index.moralis.io/api/v2.2/wallets/" ++ address ++ "/approvals?chain=" ++ chain

/-- The UTF-16 code units of a character: itself up to `0xFFFF`, a surrogate
pair above. -/
def utf16 (c : Char) : List Nat :=
  if c.toNat < 65536 then [c.toNat]
  else [55296 + (c.toNat - 65536) / 1024, 56320 + (c.toNat - 65536) % 1024]

/-- Line 31: `text.slice(0, 300)`, the first 300 UTF-16 code units. -/
def slice300 (text : String) : List Nat :=
  ((text.data.map utf16).foldr (fun u acc => u ++ acc) []).take 300

/-- Lines 93-95. -/
def serverError (e : Thrown) : Response :=
  { status := 500
    body := [("error", .text "Server error"), ("message", .text (catchMessage e))] }

/-- Lines 86-91. -/
def success (rep : Report) : Response :=
  { status := 200
    body := [("score", .number rep.score), ("riskLevel", .text rep.riskLevel),
             ("tips", .texts rep.tips), ("approvals", .records rep.approvals)] }

/-- The handler (lines 1-95). `env` is `process.env.MORALIS_API_KEY`, `fetch`
gives the outcome of the upstream call for a URL and an API key, and the query
values are strings. -/
def handler (env : Option String) (fetch : String → String → Upstream) (q : Query) :
    Response :=
  let net := q.net.getD "bsc"
  let address := q.address.getD ""
  if address.data.length == 0 || !validAddress address then
    { status := 400, body := [("error", .text "Invalid address")] }
  else
    match env with
    | none => { status := 500, body := [("error", .text "Server missing MORALIS_API_KEY")] }
    | some key =>
      if key.data.length == 0 then
        { status := 500, body := [("error", .text "Server missing MORALIS_API_KEY")] }
      else
        match fetch (url address (chain net)) key with
        | .rejected e => serverError e
        | .notOk status text =>
          { status := 502
            body := [("error", .text "Moralis failed"), ("status", .number status),
                     ("body", .units (slice300 (text.getD "")))] }
        | .badBody e => serverError e
        | .ok data =>
          match report (items data) with
          | .error e => serverError e.toThrown
          | .ok rep => success rep

/-! ## Reference definitions for the scorer and examples -/

/-- The number of approvals whose risk is `"High"`. -/
def highCount (l : List Approval) : Nat :=
  (l.filter (fun a => decide (a.risk = "High"))).length

/-- The decimal digits. -/
def digitChars : List Char :=
  ['0', '1', '2', '3', '4', '5', '6', '7', '8', '9']

/-- Whether a text consists only of decimal digits. -/
def digitsOnly (s : String) : Bool :=
  s.data.all (fun c => digitChars.contains c)

/-- The report of the empty list. -/
def emptyReport : Report :=
  { score := 100
    riskLevel := "Low"
    tips := ["No major red flags detected. Keep monitoring regularly."]
    approvals := [] }

/-- The record of the end-to-end example as it is written, the key `token`
twice. -/
def exampleRecord : Val :=
  .obj [("token", .obj [("address", .str "0xA")]),
        ("spender", .obj [("address", .str "0xB")]),
        ("allowance", .str "infinite"),
        ("token", .obj [("symbol", .str "FOO")])]

/-- The record of the end-to-end example with one `token` entry that holds
both the address and the symbol. -/
def mergedExampleRecord : Val :=
  .obj [("token", .obj [("address", .str "0xA"), ("symbol", .str "FOO")]),
        ("spender", .obj [("address", .str "0xB")]),
        ("allowance", .str "infinite")]

/-- The Approval of the end-to-end example with the token address `t`. -/
def exampleApproval (t : String) : Approval :=
  { token := .str t
    spender := .str "0xB"
    allowance := "infinite"
    symbol := .str "FOO"
    verified := "—"
    lastUpdated := .str "—"
    flags := .arr [.str "infinite"]
    risk := "High" }

/-- The report of the end-to-end example with the token address `t`. -/
def exampleReport (t : String) : Report :=
  { score := 85
    riskLevel := "Low"
    tips := ["Revoke high-risk approvals first (1)."]
    approvals := [exampleApproval t] }

/-- The largest 256-bit unsigned integer, written in decimal. -/
def maxUint256 : String :=
  "115792089237316195423570985008687907853269984665640564039457584007913129639935"

/-- A record whose allowance is the largest 256-bit unsigned integer as text. -/
def hugeRecord : Val :=
  .obj [("token_address", .str "0xA"), ("spender_address", .str "0xB"),
        ("allowance", .str maxUint256)]

/-- A request for a well-formed address on the default network. -/
def sampleQuery : Query :=
  { net := none, address := some "0x00000000000000000000000000000000000000aB" }

/-- An upstream that answers every call with status 503. -/
def unavailable : String → String → Upstream :=
  fun _ _ => .notOk 503 (some "Service Unavailable")

/-! ## Basic facts -/

theorem lookup_of_not_hasOwn (k : String) (kvs : List (String × Val))
    (h : hasOwn k kvs = false) : lookup k kvs = .undefined := by
  induction kvs with
  | nil => rfl
  | cons p rest ih =>
    obtain ⟨k', v⟩ := p
    simp only [hasOwn, List.any_cons, Bool.or_eq_false_iff, beq_eq_false_iff_ne, ne_eq] at h
    have hrest : hasOwn k rest = false := by simpa [hasOwn] using h.2
    simp [lookup, hrest, h.1]

theorem optGet_of_not_hasField (x : Val) (k : String) (h : hasField x k = false) :
    optGet x k = .undefined := by
  cases x <;> simp [optGet, Val.isNullish, prop]
  case obj kvs => exact lookup_of_not_hasOwn k kvs h

theorem optGet_undefined (k : String) : optGet .undefined k = .undefined := rfl

theorem normalize_ok_iff (x : Val) (a : Approval) :
    normalize x = .ok a ↔
      ∃ s, allowance x = .ok s ∧
        a = { token := token x, spender := spender x, allowance := s, symbol := symbol x,
              verified := verified, lastUpdated := lastUpdated x,
              flags := flags (flagsArr s), risk := risk (flagsArr s) } := by
  unfold normalize
  cases h : allowance x with
  | error e => simp
  | ok s =>
    simp only [Except.ok.injEq, exists_eq_left']
    exact eq_comm

theorem normalize_of_allowance (x : Val) (s : String) (h : allowance x = .ok s) :
    normalize x =
      .ok { token := token x, spender := spender x, allowance := s, symbol := symbol x,
            verified := verified, lastUpdated := lastUpdated x,
            flags := flags (flagsArr s), risk := risk (flagsArr s) } := by
  simp [normalize, h]

theorem approvals_cons_ok_iff (x : Val) (rest : List Val) (out : List Approval) :
    approvals (x :: rest) = .ok out ↔
      ∃ a as, normalize x = .ok a ∧ approvals rest = .ok as ∧ out = a :: as := by
  simp only [approvals]
  cases hx : normalize x with
  | error e => simp
  | ok a =>
    cases hr : approvals rest with
    | error e => simp
    | ok as =>
      simp only [Except.ok.injEq, exists_and_left, exists_eq_left']
      exact eq_comm

mutual
theorem jsString_ok_iff : ∀ v : Val, (∃ s, jsString v = .ok s) ↔ printable v = true
  | .undefined => by simp [jsString, printable]
  | .null => by simp [jsString, printable]
  | .bool b => by simp [jsString, printable]
  | .num n => by simp [jsString, printable]
  | .str s => by simp [jsString, printable]
  | .arr xs => by
    simp only [jsString, printable]
    exact jsJoin_ok_iff xs
  | .obj kvs => by
    by_cases h : hasOwn "toString" kvs = true <;> simp [jsString, printable, h]
theorem jsJoin_ok_iff : ∀ l : List Val, (∃ s, jsJoin l = .ok s) ↔ printableAll l = true
  | [] => by simp [jsJoin, printableAll]
  | x :: rest => by
    have ihx := jsString_ok_iff x
    have ihr := jsJoin_ok_iff rest
    have step : jsJoin (x :: rest) =
        (match (if x.isNullish then .ok "" else jsString x), jsJoin rest with
          | .ok a, .ok b => .ok (if rest.isEmpty then a else a ++ "," ++ b)
          | .error e, _ => .error e
          | .ok _, .error e => .error e) := by
      rw [jsJoin]
    rw [printableAll, Bool.and_eq_true, Bool.or_eq_true, ← ihx, ← ihr, step]
    by_cases hn : x.isNullish = true
    · simp only [hn, if_true, true_or, true_and]
      cases hr : jsJoin rest with
      | error e => simp
      | ok b => simp
    · simp only [hn, if_false, false_or, Bool.false_eq_true]
      cases hx : jsString x with
      | error e => simp
      | ok a =>
        cases hr : jsJoin rest with
        | error e => simp
        | ok b => simp
end

theorem normalize_isOk_iff (x : Val) :
    (∃ a, normalize x = .ok a) ↔ printable (allowanceSource x) = true := by
  rw [← jsString_ok_iff]
  constructor
  · rintro ⟨a, h⟩
    obtain ⟨s, hs, -⟩ := (normalize_ok_iff x a).mp h
    exact ⟨s, hs⟩
  · rintro ⟨s, hs⟩
    exact ⟨_, normalize_of_allowance x s hs⟩

theorem approvals_isOk_iff (items : List Val) :
    (∃ out, approvals items = .ok out) ↔
      ∀ x ∈ items, printable (allowanceSource x) = true := by
  induction items with
  | nil => simp [approvals]
  | cons x rest ih =>
    constructor
    · rintro ⟨out, h⟩
      obtain ⟨a, as, hx, hr, -⟩ := (approvals_cons_ok_iff x rest out).mp h
      intro y hy
      rcases List.mem_cons.mp hy with rfl | hy
      · exact (normalize_isOk_iff _).mp ⟨a, hx⟩
      · exact ih.mp ⟨as, hr⟩ y hy
    · intro h
      obtain ⟨a, hx⟩ := (normalize_isOk_iff x).mpr (h x (by simp))
      obtain ⟨as, hr⟩ := ih.mpr (fun y hy => h y (by simp [hy]))
      exact ⟨a :: as, (approvals_cons_ok_iff x rest _).mpr ⟨a, as, hx, hr, rfl⟩⟩

/-! ## Claims -/

/-- C1: the approvals list exists exactly when it has the length of the input
and, at every index, its entry is the normalization of the raw record at that
index taken alone; so order is preserved and each approval is determined by
its own record. -/
theorem approvals_pointwise (items : List Val) (out : List Approval) :
    approvals items = .ok out ↔
      out.length = items.length ∧
        ∀ (i : Nat) (hi : i < items.length) (ho : i < out.length),
          normalize items[i] = .ok out[i] := by
  induction items generalizing out with
  | nil =>
    constructor
    · intro h
      have : out = [] := by simpa [approvals] using h.symm
      subst this
      exact ⟨rfl, fun i hi => absurd hi (Nat.not_lt_zero i)⟩
    · rintro ⟨hlen, -⟩
      have : out = [] := List.length_eq_zero.mp hlen
      subst this
      rfl
  | cons x rest ih =>
    rw [approvals_cons_ok_iff]
    constructor
    · rintro ⟨a, as, hx, hr, rfl⟩
      obtain ⟨hlen, hidx⟩ := (ih as).mp hr
      refine ⟨by simp [hlen], ?_⟩
      intro i hi ho
      cases i with
      | zero => simpa using hx
      | succ j =>
        simp only [List.getElem_cons_succ]
        exact hidx j (by simpa using hi) (by simpa using ho)
    · rintro ⟨hlen, hidx⟩
      cases out with
      | nil => simp at hlen
      | cons a as =>
        refine ⟨a, as, ?_, ?_, rfl⟩
        · simpa using hidx 0 (by simp) (by simp)
        · refine (ih as).mpr ⟨by simpa using hlen, ?_⟩
          intro i hi ho
          simpa using hidx (i + 1) (by simpa using hi) (by simpa using ho)

/-- C2: normalization is not total. A record whose allowance is an object with
an own `toString` entry makes `String` throw a TypeError, and the exception
ends `items.map`, also for a list in which another record normalizes. -/
theorem normalize_throws :
    normalize unprintableRecord = .error noPrimitive ∧
      (∃ a, normalize plainRecord = .ok a) ∧
      approvals [plainRecord, unprintableRecord] = .error noPrimitive ∧
      report [plainRecord, unprintableRecord] = .error noPrimitive :=
  ⟨rfl, ⟨_, rfl⟩, rfl, rfl⟩

/-- C3 as stated fails: with `token_address: ""` and `tokenAddress: "0xA"` the
first field present is `token_address`, whose value is `""`, but the
normalized token is `"0xA"`. -/
theorem token_not_first_present :
    ∃ a, normalize emptyTokenRecord = .ok a ∧
      a.token = .str "0xA" ∧
      firstPresent (.str "") (tokenFields emptyTokenRecord) = .str "" ∧
      a.token ≠ firstPresent (.str "") (tokenFields emptyTokenRecord) :=
  ⟨_, rfl, rfl, rfl, by
    show Val.str "0xA" ≠ Val.str ""
    intro h
    injection h with h
    exact absurd h (by decide)⟩

theorem jsOr_chain3 (a b c d : Val) :
    jsOr (jsOr (jsOr a b) c) d = firstTruthy d [a, b, c] := by
  by_cases ha : truthy a = true
  · simp [jsOr, firstTruthy, ha]
  · by_cases hb : truthy b = true
    · simp [jsOr, firstTruthy, ha, hb]
    · by_cases hc : truthy c = true <;> simp [jsOr, firstTruthy, ha, hb, hc]

theorem jsOr_chain2 (a b d : Val) :
    jsOr (jsOr a b) d = firstTruthy d [a, b] := by
  by_cases ha : truthy a = true
  · simp [jsOr, firstTruthy, ha]
  · by_cases hb : truthy b = true <;> simp [jsOr, firstTruthy, ha, hb]

theorem jsCoalesce_chain3 (a b c d : Val) :
    jsCoalesce (jsCoalesce (jsCoalesce a b) c) d = firstNonNull d [a, b, c] := by
  by_cases ha : a.isNullish = true
  · by_cases hb : b.isNullish = true
    · by_cases hc : c.isNullish = true <;> simp [jsCoalesce, firstNonNull, ha, hb, hc]
    · simp [jsCoalesce, firstNonNull, ha, hb]
  · simp [jsCoalesce, firstNonNull, ha]

theorem firstTruthy_isString (d : Val) (l : List Val) (hd : d.isString = true)
    (hl : ∀ v ∈ l, truthy v = true → v.isString = true) :
    (firstTruthy d l).isString = true := by
  induction l with
  | nil => exact hd
  | cons v rest ih =>
    by_cases hv : truthy v = true
    · simpa [firstTruthy, hv] using hl v (by simp) hv
    · simpa [firstTruthy, hv] using ih (fun w hw => hl w (by simp [hw]))

/-- C3 (amended): the normalized token address is the first truthy value among
`token.address`, `token_address`, `tokenAddress` (a value that is absent,
`null`, `false`, `0` or `""` is passed over) and `""` when none is truthy;
likewise the spender address over `spender.address`, `spender_address`,
`spenderAddress`. -/
theorem token_first_truthy (x : Val) (a : Approval) (h : normalize x = .ok a) :
    a.token = firstTruthy (.str "") (tokenFields x) ∧
      a.spender = firstTruthy (.str "") (spenderFields x) := by
  obtain ⟨s, -, rfl⟩ := (normalize_ok_iff x a).mp h
  exact ⟨jsOr_chain3 _ _ _ _, jsOr_chain3 _ _ _ _⟩

theorem token_first_truthy_witness :
    normalize emptyTokenRecord =
        .ok { token := .str "0xA", spender := .str "0xB", allowance := "1000",
              symbol := .str "—", verified := "—", lastUpdated := .str "—",
              flags := .str "—", risk := "Low" } ∧
      Val.str "0xA" = firstTruthy (.str "") (tokenFields emptyTokenRecord) ∧
      Val.str "0xB" = firstTruthy (.str "") (spenderFields emptyTokenRecord) :=
  ⟨rfl, token_first_truthy emptyTokenRecord _ rfl⟩

/-- C4: the normalized allowance is the text `String` gives for the first of
`allowance`, `value`, `amount` that is present and not `null`, and for `"0"`
when there is none; a record whose `allowance` is the number `0` normalizes,
with allowance `"0"`, whatever `value` and `amount` hold. -/
theorem allowance_text (x : Val) :
    allowance x = jsString (firstNonNull (.str "0") (allowanceFields x)) ∧
      (∀ a, normalize x = .ok a →
        jsString (firstNonNull (.str "0") (allowanceFields x)) = .ok a.allowance) ∧
      (∀ neg, optGet x "allowance" = .num (.zero neg) →
        ∃ a, normalize x = .ok a ∧ a.allowance = "0") := by
  have hsrc : allowance x = jsString (firstNonNull (.str "0") (allowanceFields x)) := by
    simp only [allowance, allowanceSource, allowanceFields, jsCoalesce_chain3]
  refine ⟨hsrc, ?_, ?_⟩
  · intro a h
    obtain ⟨s, hs, rfl⟩ := (normalize_ok_iff x a).mp h
    rw [← hsrc, hs]
  · intro neg h0
    have hs : allowance x = .ok "0" := by
      simp [allowance, allowanceSource, jsCoalesce, h0, Val.isNullish, jsString, numToString]
    exact ⟨_, normalize_of_allowance x "0" hs, rfl⟩

theorem allowance_text_witness :
    ∃ a, normalize zeroAllowanceRecord = .ok a ∧ a.allowance = "0" :=
  (allowance_text zeroAllowanceRecord).2.2 false rfl

/-- C5: a record with none of the recognized fields normalizes to the record of
defaults: token `""`, spender `""`, symbol `"—"`, allowance `"0"`, verified
`"—"`, lastUpdated `"—"`, flags `"—"`, risk `"Low"`. -/
theorem normalize_no_fields (x : Val)
    (h : ∀ k ∈ recognizedFields, hasField x k = false) :
    normalize x = .ok defaultApproval := by
  have g : ∀ k ∈ recognizedFields, optGet x k = .undefined :=
    fun k hk => optGet_of_not_hasField x k (h k hk)
  have hs : allowance x = .ok "0" := by
    simp only [allowance, allowanceSource]
    rw [g "allowance" (by decide), g "value" (by decide), g "amount" (by decide)]
    rfl
  rw [normalize_of_allowance x "0" hs]
  simp only [token, spender, symbol, lastUpdated]
  rw [g "token" (by decide), g "token_address" (by decide), g "tokenAddress" (by decide),
    g "spender" (by decide), g "spender_address" (by decide), g "spenderAddress" (by decide),
    g "token_symbol" (by decide), g "block_timestamp" (by decide), g "updated_at" (by decide),
    g "blockTime" (by decide)]
  rfl

theorem normalize_no_fields_witness :
    normalize (.obj [("chain", .str "bsc")]) = .ok defaultApproval :=
  normalize_no_fields (.obj [("chain", .str "bsc")]) (by decide)

/-- C6 as stated fails: a numeric `block_timestamp` is taken over as it is, so
`lastUpdated` is a number and not a string. -/
theorem lastUpdated_not_string :
    ∃ a, normalize timestampRecord = .ok a ∧
      a.lastUpdated = .num (.fin false 17 10) ∧
      a.lastUpdated.isString = false :=
  ⟨_, rfl, rfl, rfl⟩

/-- C6 (amended): `verified` is the string `"—"` and `allowance` is the text
that `String` returned; each of `token`, `spender`, `symbol` and `lastUpdated`
is the first truthy value among the fields it is resolved from, taken over
unchanged whatever its type, or its default string when none is truthy; so it
is a string whenever every truthy value among those fields is a string. -/
theorem fields_string (x : Val) (a : Approval) (h : normalize x = .ok a) :
    a.verified = "—" ∧
      jsString (allowanceSource x) = .ok a.allowance ∧
      a.token = firstTruthy (.str "") (tokenFields x) ∧
      a.spender = firstTruthy (.str "") (spenderFields x) ∧
      a.symbol = firstTruthy (.str "—") (symbolFields x) ∧
      a.lastUpdated = firstTruthy (.str "—") (lastUpdatedFields x) ∧
      ((∀ v ∈ tokenFields x, truthy v = true → v.isString = true) →
        a.token.isString = true) ∧
      ((∀ v ∈ spenderFields x, truthy v = true → v.isString = true) →
        a.spender.isString = true) ∧
      ((∀ v ∈ symbolFields x, truthy v = true → v.isString = true) →
        a.symbol.isString = true) ∧
      ((∀ v ∈ lastUpdatedFields x, truthy v = true → v.isString = true) →
        a.lastUpdated.isString = true) := by
  obtain ⟨s, hs, rfl⟩ := (normalize_ok_iff x a).mp h
  have ht : token x = firstTruthy (.str "") (tokenFields x) := jsOr_chain3 _ _ _ _
  have hsp : spender x = firstTruthy (.str "") (spenderFields x) := jsOr_chain3 _ _ _ _
  have hsy : symbol x = firstTruthy (.str "—") (symbolFields x) := jsOr_chain2 _ _ _
  have hl : lastUpdated x = firstTruthy (.str "—") (lastUpdatedFields x) :=
    jsOr_chain3 _ _ _ _
  refine ⟨rfl, hs, ht, hsp, hsy, hl, ?_, ?_, ?_, ?_⟩
  · intro hv
    show (token x).isString = true
    rw [ht]
    exact firstTruthy_isString _ _ rfl hv
  · intro hv
    show (spender x).isString = true
    rw [hsp]
    exact firstTruthy_isString _ _ rfl hv
  · intro hv
    show (symbol x).isString = true
    rw [hsy]
    exact firstTruthy_isString _ _ rfl hv
  · intro hv
    show (lastUpdated x).isString = true
    rw [hl]
    exact firstTruthy_isString _ _ rfl hv

theorem fields_string_witness :
    normalize looseRecord =
        .ok { token := .str "0xA", spender := .str "", allowance := "5",
              symbol := .num (.fin false 7 1), verified := "—", lastUpdated := .bool true,
              flags := .str "—", risk := "Low" } ∧
      Val.num (.fin false 7 1) = firstTruthy (.str "—") (symbolFields looseRecord) ∧
      Val.bool true = firstTruthy (.str "—") (lastUpdatedFields looseRecord) ∧
      (Val.str "0xA").isString = true :=
  ⟨rfl, (fields_string looseRecord _ rfl).2.2.2.2.1,
    (fields_string looseRecord _ rfl).2.2.2.2.2.1,
    (fields_string looseRecord _ rfl).2.2.2.2.2.2.1 (by decide)⟩

theorem startsWith_iff (s p : List Char) : startsWith s p = true ↔ p <+: s := by
  induction s generalizing p with
  | nil =>
    cases p with
    | nil => simp [startsWith]
    | cons d p => simp [startsWith]
  | cons c s ih =>
    cases p with
    | nil => simp [startsWith]
    | cons d p =>
      simp only [startsWith, Bool.and_eq_true, beq_iff_eq, ih, List.cons_prefix_cons]
      constructor
      · rintro ⟨rfl, h⟩
        exact ⟨rfl, h⟩
      · rintro ⟨rfl, h⟩
        exact ⟨rfl, h⟩

theorem occursIn_iff (s p : List Char) : occursIn s p = true ↔ p <:+: s := by
  induction s with
  | nil =>
    cases p with
    | nil => simp [occursIn]
    | cons d p => simp [occursIn]
  | cons c s ih =>
    simp only [occursIn, Bool.or_eq_true, startsWith_iff, ih, List.infix_cons_iff]

theorem isInfinite_iff (alw : String) :
    isInfinite alw = true ↔
      alw = "infinite" ∨ alw = "∞" ∨ "inf".data <:+: alw.data := by
  simp only [isInfinite, includes, Bool.or_eq_true, beq_iff_eq, occursIn_iff, or_assoc]

theorem flags_flagsArr (s : String) :
    (flags (flagsArr s) = .arr [.str "infinite"] ↔ isInfinite (toLowerCase s) = true) ∧
      (flags (flagsArr s) = .str "—" ↔ isInfinite (toLowerCase s) = false) := by
  by_cases hc : isInfinite (toLowerCase s) = true
  · have : flags (flagsArr s) = .arr [.str "infinite"] := by simp [flagsArr, hc, flags]
    simp [this, hc]
  · have hc' : isInfinite (toLowerCase s) = false := by simpa using hc
    have : flags (flagsArr s) = .str "—" := by simp [flagsArr, hc', flags]
    simp [this, hc']

theorem risk_flagsArr (s : String) :
    (risk (flagsArr s) = "High" ↔ isInfinite (toLowerCase s) = true) ∧
      (risk (flagsArr s) = "Low" ↔ isInfinite (toLowerCase s) = false) := by
  by_cases hc : isInfinite (toLowerCase s) = true
  · have : risk (flagsArr s) = "High" := by simp [flagsArr, hc, risk]
    simp [this, hc]
  · have hc' : isInfinite (toLowerCase s) = false := by simpa using hc
    have : risk (flagsArr s) = "Low" := by simp [flagsArr, hc', risk]
    simp [this, hc']

/-- C7: a record whose allowance text is `s` normalizes, and its flags are
`["infinite"]` exactly when the lower-cased `s` equals `"infinite"`, equals
`"∞"` or contains `"inf"`, and the sentinel `"—"` otherwise; the texts
`"Infinite"`, `"INF"` and `"∞"` are flagged and `"1000"` is not. -/
theorem infinite_flag (x : Val) (s : String) (h : allowance x = .ok s) :
    ∃ a, normalize x = .ok a ∧ a.allowance = s ∧
      (a.flags = .arr [.str "infinite"] ↔
        toLowerCase s = "infinite" ∨ toLowerCase s = "∞" ∨
          "inf".data <:+: (toLowerCase s).data) ∧
      (a.flags = .str "—" ↔
        ¬ (toLowerCase s = "infinite" ∨ toLowerCase s = "∞" ∨
          "inf".data <:+: (toLowerCase s).data)) ∧
      (s = "Infinite" ∨ s = "INF" ∨ s = "∞" → a.flags = .arr [.str "infinite"]) ∧
      (s = "1000" → a.flags = .str "—") := by
  refine ⟨_, normalize_of_allowance x s h, rfl, ?_, ?_, ?_, ?_⟩
  · exact (flags_flagsArr s).1.trans (isInfinite_iff _)
  · rw [← isInfinite_iff]
    exact (flags_flagsArr s).2.trans (by simp)
  · rintro (rfl | rfl | rfl) <;> rfl
  · rintro rfl
    rfl

theorem infinite_flag_witness :
    ∃ a, normalize infRecord = .ok a ∧ a.allowance = "INF" ∧
      (a.flags = .arr [.str "infinite"] ↔
        toLowerCase "INF" = "infinite" ∨ toLowerCase "INF" = "∞" ∨
          "inf".data <:+: (toLowerCase "INF").data) ∧
      (a.flags = .str "—" ↔
        ¬ (toLowerCase "INF" = "infinite" ∨ toLowerCase "INF" = "∞" ∨
          "inf".data <:+: (toLowerCase "INF").data)) ∧
      ("INF" = "Infinite" ∨ "INF" = "INF" ∨ "INF" = "∞" → a.flags = .arr [.str "infinite"]) ∧
      ("INF" = "1000" → a.flags = .str "—") :=
  infinite_flag infRecord "INF" rfl

theorem normalize_risk_flags (x : Val) (a : Approval) (h : normalize x = .ok a) :
    (a.risk = "High" ∧ a.flags = .arr [.str "infinite"]) ∨
      (a.risk = "Low" ∧ a.flags = .str "—") := by
  obtain ⟨s, -, rfl⟩ := (normalize_ok_iff x a).mp h
  by_cases hc : isInfinite (toLowerCase s) = true
  · exact Or.inl ⟨(risk_flagsArr s).1.mpr hc, (flags_flagsArr s).1.mpr hc⟩
  · have hc' : isInfinite (toLowerCase s) = false := by simpa using hc
    exact Or.inr ⟨(risk_flagsArr s).2.mpr hc', (flags_flagsArr s).2.mpr hc'⟩

/-- C8: the risk of a normalized approval is `"High"` exactly when its flags
are the one-element list `["infinite"]` and `"Low"` exactly when its flags are
the sentinel `"—"`; no other risk and no other flags value occurs. -/
theorem risk_iff_flags (x : Val) (a : Approval) (h : normalize x = .ok a) :
    (a.risk = "High" ↔ a.flags = .arr [.str "infinite"]) ∧
      (a.risk = "Low" ↔ a.flags = .str "—") ∧
      ((a.risk = "High" ∧ a.flags = .arr [.str "infinite"]) ∨
        (a.risk = "Low" ∧ a.flags = .str "—")) := by
  have hd := normalize_risk_flags x a h
  obtain ⟨s, -, rfl⟩ := (normalize_ok_iff x a).mp h
  exact ⟨(risk_flagsArr s).1.trans (flags_flagsArr s).1.symm,
    (risk_flagsArr s).2.trans (flags_flagsArr s).2.symm, hd⟩

theorem risk_iff_flags_witness :
    normalize infRecord =
        .ok { token := .str "0xA", spender := .str "0xB", allowance := "INF",
              symbol := .str "—", verified := "—", lastUpdated := .str "—",
              flags := .arr [.str "infinite"], risk := "High" } ∧
      ("High" = "High" ↔ Val.arr [.str "infinite"] = .arr [.str "infinite"]) :=
  ⟨rfl, (risk_iff_flags infRecord _ rfl).1⟩

theorem approvals_mem (items : List Val) (out : List Approval)
    (h : approvals items = .ok out) :
    ∀ a ∈ out, ∃ x ∈ items, normalize x = .ok a := by
  induction items generalizing out with
  | nil =>
    have : out = [] := by simpa [approvals] using h.symm
    subst this
    simp
  | cons x rest ih =>
    obtain ⟨a, as, hx, hr, rfl⟩ := (approvals_cons_ok_iff x rest out).mp h
    intro b hb
    rcases List.mem_cons.mp hb with rfl | hb
    · exact ⟨x, by simp, hx⟩
    · obtain ⟨y, hy, hn⟩ := ih as hr b hb
      exact ⟨y, by simp [hy], hn⟩

theorem isHigh_of_normalize (x : Val) (a : Approval) (h : normalize x = .ok a) :
    isHigh a = decide (a.risk = "High") := by
  rcases normalize_risk_flags x a h with ⟨hr, -⟩ | ⟨hr, -⟩
  · simp only [isHigh, hr]
    decide
  · simp only [isHigh, hr]
    decide

theorem high_eq_count (items : List Val) (out : List Approval)
    (h : approvals items = .ok out) :
    high out = (out.filter (fun a => decide (a.risk = "High"))).length := by
  have hmem := approvals_mem items out h
  unfold high
  congr 1
  apply List.filter_congr
  intro a ha
  obtain ⟨x, -, hx⟩ := hmem a ha
  exact isHigh_of_normalize x a hx

theorem report_ok_iff (items : List Val) (rep : Report) :
    report items = .ok rep ↔ ∃ out, approvals items = .ok out ∧ rep = summarize out := by
  unfold report
  cases h : approvals items with
  | error e => simp
  | ok out =>
    simp only [Except.ok.injEq, exists_eq_left']
    exact eq_comm

/-- C9: the score of the report is `max(0, 100 - 15 * highCount)`, where
`highCount` is the number of normalized approvals whose risk is `"High"`; the
containment check of the filter counts exactly those approvals and none whose
risk is `"Low"`; the score lies between 0 and 100. -/
theorem score_formula (items : List Val) (rep : Report) (h : report items = .ok rep) :
    approvals items = .ok rep.approvals ∧
      rep.score =
        max 0 (100 - 15 * ((rep.approvals.filter (fun a => decide (a.risk = "High"))).length : Int)) ∧
      high rep.approvals = (rep.approvals.filter (fun a => decide (a.risk = "High"))).length ∧
      (∀ a ∈ rep.approvals, isHigh a = true ↔ a.risk = "High") ∧
      (∀ a ∈ rep.approvals, a.risk = "Low" → isHigh a = false) ∧
      0 ≤ rep.score ∧ rep.score ≤ 100 := by
  obtain ⟨out, hout, rfl⟩ := (report_ok_iff items rep).mp h
  have hcount := high_eq_count items out hout
  have hmem := approvals_mem items out hout
  refine ⟨hout, ?_, hcount, ?_, ?_, ?_, ?_⟩
  · show score (high out) = _
    rw [hcount, score, mul_comm]
    rfl
  · intro a ha
    obtain ⟨x, -, hx⟩ := hmem a ha
    rw [isHigh_of_normalize x a hx]
    simp
  · intro a ha hlow
    obtain ⟨x, -, hx⟩ := hmem a ha
    rw [isHigh_of_normalize x a hx, hlow]
    decide
  · show 0 ≤ score (high out)
    exact le_max_left _ _
  · show score (high out) ≤ 100
    unfold score
    have : (0 : Int) ≤ (high out : Int) * 15 := by positivity
    exact max_le (by norm_num) (by linarith)

theorem score_formula_witness :
    report mixedItems = .ok (summarize [
        { token := .str "0xA", spender := .str "0xB", allowance := "INF",
          symbol := .str "—", verified := "—", lastUpdated := .str "—",
          flags := .arr [.str "infinite"], risk := "High" },
        { token := .str "0xA", spender := .str "0xB", allowance := "1000",
          symbol := .str "—", verified := "—", lastUpdated := .str "—",
          flags := .str "—", risk := "Low" },
        { token := .str "", spender := .str "", allowance := "Infinite",
          symbol := .str "—", verified := "—", lastUpdated := .str "—",
          flags := .arr [.str "infinite"], risk := "High" }]) ∧
      (summarize [
        { token := .str "0xA", spender := .str "0xB", allowance := "INF",
          symbol := .str "—", verified := "—", lastUpdated := .str "—",
          flags := .arr [.str "infinite"], risk := "High" },
        { token := .str "0xA", spender := .str "0xB", allowance := "1000",
          symbol := .str "—", verified := "—", lastUpdated := .str "—",
          flags := .str "—", risk := "Low" },
        { token := .str "", spender := .str "", allowance := "Infinite",
          symbol := .str "—", verified := "—", lastUpdated := .str "—",
          flags := .arr [.str "infinite"], risk := "High" }]).score = 70 :=
  ⟨rfl, ((score_formula mixedItems _ rfl).2.1).trans (by decide)⟩

/-- C10: the risk level of the report is `"Low"` exactly when the score is at
least 80, `"Medium"` exactly when the score is at least 50 and below 80, and
`"High"` exactly when the score is below 50. -/
theorem riskLevel_bands (items : List Val) (rep : Report) (h : report items = .ok rep) :
    (rep.riskLevel = "Low" ↔ 80 ≤ rep.score) ∧
      (rep.riskLevel = "Medium" ↔ 50 ≤ rep.score ∧ rep.score < 80) ∧
      (rep.riskLevel = "High" ↔ rep.score < 50) := by
  obtain ⟨out, -, rfl⟩ := (report_ok_iff items rep).mp h
  show (riskLevel (score (high out)) = "Low" ↔ 80 ≤ score (high out)) ∧
    (riskLevel (score (high out)) = "Medium" ↔
      50 ≤ score (high out) ∧ score (high out) < 80) ∧
    (riskLevel (score (high out)) = "High" ↔ score (high out) < 50)
  generalize score (high out) = sc
  by_cases h80 : sc ≥ 80
  · have hv : riskLevel sc = "Low" := by simp [riskLevel, h80]
    rw [hv]
    exact ⟨⟨fun _ => h80, fun _ => rfl⟩,
      ⟨fun hne => absurd hne (by decide), fun hb => by omega⟩,
      ⟨fun hne => absurd hne (by decide), fun hb => by omega⟩⟩
  · by_cases h50 : sc ≥ 50
    · have hv : riskLevel sc = "Medium" := by simp [riskLevel, h80, h50]
      rw [hv]
      exact ⟨⟨fun hne => absurd hne (by decide), fun hb => by omega⟩,
        ⟨fun _ => ⟨h50, by omega⟩, fun _ => rfl⟩,
        ⟨fun hne => absurd hne (by decide), fun hb => by omega⟩⟩
    · have hv : riskLevel sc = "High" := by simp [riskLevel, h80, h50]
      rw [hv]
      exact ⟨⟨fun hne => absurd hne (by decide), fun hb => by omega⟩,
        ⟨fun hne => absurd hne (by decide), fun hb => by omega⟩,
        ⟨fun _ => by omega, fun _ => rfl⟩⟩

theorem riskLevel_bands_witness :
    (summarize []).riskLevel = "Low" ↔ 80 ≤ (summarize []).score :=
  (riskLevel_bands [] (summarize []) rfl).1

theorem report_fields (raw : List Val) (rep : Report) (h : report raw = .ok rep) :
    approvals raw = .ok rep.approvals ∧
      rep.score = score (highCount rep.approvals) ∧
      rep.riskLevel = riskLevel (score (highCount rep.approvals)) ∧
      rep.tips = tips (highCount rep.approvals) := by
  obtain ⟨out, hout, rfl⟩ := (report_ok_iff raw rep).mp h
  have hc : high out = highCount out := high_eq_count raw out hout
  refine ⟨hout, ?_, ?_, ?_⟩
  · show score (high out) = score (highCount out)
    rw [hc]
  · show riskLevel (score (high out)) = riskLevel (score (highCount out))
    rw [hc]
  · show tips (high out) = tips (highCount out)
    rw [hc]

theorem score_eq (n : Nat) :
    score n = if n ≤ 6 then 100 - 15 * (n : Int) else 0 := by
  unfold score
  split_ifs with h
  · rw [max_eq_right (by omega)]
    ring
  · rw [max_eq_left (by omega)]

theorem score_values (n : Nat) :
    score n = 100 ∨ score n = 85 ∨ score n = 70 ∨ score n = 55 ∨
      score n = 40 ∨ score n = 25 ∨ score n = 10 ∨ score n = 0 := by
  rw [score_eq]
  split_ifs with h
  · interval_cases n <;> simp
  · simp

theorem riskLevel_score (n : Nat) :
    riskLevel (score n) =
      if n ≤ 1 then "Low" else if n ≤ 3 then "Medium" else "High" := by
  rw [score_eq]
  unfold riskLevel
  by_cases h6 : n ≤ 6
  · interval_cases n <;> simp
  · have h1 : ¬ n ≤ 1 := by omega
    have h3 : ¬ n ≤ 3 := by omega
    simp [h6, h1, h3]

theorem score_antitone_high (m n : Nat) (h : m ≤ n) : score n ≤ score m := by
  unfold score
  apply max_le_max (le_refl 0)
  have : (m : Int) ≤ n := by exact_mod_cast h
  linarith

/-- C11: the tips of the report are a list of exactly one entry: with
`highCount > 0` the entry is `"Revoke high-risk approvals first (N)."`, `N` the
decimal rendering of `highCount`, and with `highCount = 0` it is the
reassurance tip. -/
theorem tips_single (raw : List Val) (rep : Report) (h : report raw = .ok rep) :
    rep.tips.length = 1 ∧
      (0 < highCount rep.approvals →
        rep.tips = ["Revoke high-risk approvals first (" ++
          Nat.repr (highCount rep.approvals) ++ ")."]) ∧
      (highCount rep.approvals = 0 →
        rep.tips = ["No major red flags detected. Keep monitoring regularly."]) := by
  obtain ⟨-, -, -, ht⟩ := report_fields raw rep h
  rw [ht]
  by_cases hz : highCount rep.approvals = 0
  · rw [hz]
    exact ⟨rfl, fun hpos => absurd hpos (by decide), fun _ => rfl⟩
  · have hpos : 0 < highCount rep.approvals := Nat.pos_of_ne_zero hz
    have htips : tips (highCount rep.approvals) =
        ["Revoke high-risk approvals first (" ++
          Nat.repr (highCount rep.approvals) ++ ")."] := by
      simp [tips, hz, Nat.repr, List.asString]
    rw [htips]
    exact ⟨rfl, fun _ => rfl, fun h0 => absurd h0 hz⟩

theorem tips_single_witness :
    (summarize [exampleApproval "0xA"]).tips = ["Revoke high-risk approvals first (1)."] :=
  ((tips_single [mergedExampleRecord] (summarize [exampleApproval "0xA"]) rfl).2.1
    (by decide)).trans rfl

/-- C12 as stated fails: in the record written with the key `token` twice
the later entry replaces the former, so `token.address` is not there and the
approval of the report has the token `""`, not `"0xA"`. -/
theorem example_token_lost :
    report [exampleRecord] = .ok (exampleReport "") ∧
      report [exampleRecord] ≠ .ok (exampleReport "0xA") := by
  refine ⟨rfl, ?_⟩
  rw [show report [exampleRecord] = .ok (exampleReport "") from rfl]
  intro h
  injection h with h
  have h2 := congrArg (fun r : Report => r.approvals.map (fun a => a.token.isString && truthy a.token)) h
  exact absurd h2 (by decide)

/-- C12 (amended): for the record written with the key `token` twice the
report is score 85, risk level `"Low"`, one tip naming the count 1 and one
approval with token `""`, spender `"0xB"`, allowance `"infinite"`, symbol
`"FOO"`, flags `["infinite"]` and risk `"High"`; the report with token `"0xA"`
is the one of the record whose single `token` entry holds both the address and
the symbol. -/
theorem example_report :
    report [exampleRecord] =
        .ok { score := 85
              riskLevel := "Low"
              tips := ["Revoke high-risk approvals first (1)."]
              approvals := [{ token := .str "", spender := .str "0xB",
                              allowance := "infinite", symbol := .str "FOO",
                              verified := "—", lastUpdated := .str "—",
                              flags := .arr [.str "infinite"], risk := "High" }] } ∧
      report [mergedExampleRecord] =
        .ok { score := 85
              riskLevel := "Low"
              tips := ["Revoke high-risk approvals first (1)."]
              approvals := [{ token := .str "0xA", spender := .str "0xB",
                              allowance := "infinite", symbol := .str "FOO",
                              verified := "—", lastUpdated := .str "—",
                              flags := .arr [.str "infinite"], risk := "High" }] } :=
  ⟨rfl, rfl⟩

/-- C13: the report of the empty raw list is score 100, risk level `"Low"`,
the single reassurance tip and no approvals. -/
theorem report_nil :
    report [] =
      .ok { score := 100
            riskLevel := "Low"
            tips := ["No major red flags detected. Keep monitoring regularly."]
            approvals := [] } :=
  rfl

/-- C14: for two raw lists with reports, if the approvals of the first contain
at least as many High-risk entries as those of the second, the score of the
first is at most the score of the second. -/
theorem score_antitone (rawA rawB : List Val) (repA repB : Report)
    (hA : report rawA = .ok repA) (hB : report rawB = .ok repB)
    (hle : highCount repB.approvals ≤ highCount repA.approvals) :
    repA.score ≤ repB.score := by
  rw [(report_fields rawA repA hA).2.1, (report_fields rawB repB hB).2.1]
  exact score_antitone_high _ _ hle

theorem score_antitone_witness :
    (summarize [exampleApproval "0xA"]).score ≤ (summarize []).score :=
  score_antitone [mergedExampleRecord] [] (summarize [exampleApproval "0xA"]) (summarize [])
    rfl rfl (by decide)

/-- C15: a report whose approvals contain at least 7 High-risk entries has
score 0 and risk level `"High"`. -/
theorem score_floor (raw : List Val) (rep : Report) (h : report raw = .ok rep)
    (h7 : 7 ≤ highCount rep.approvals) :
    rep.score = 0 ∧ rep.riskLevel = "High" := by
  obtain ⟨-, hs, hr, -⟩ := report_fields raw rep h
  have h6 : ¬ highCount rep.approvals ≤ 6 := by omega
  have h1 : ¬ highCount rep.approvals ≤ 1 := by omega
  have h3 : ¬ highCount rep.approvals ≤ 3 := by omega
  refine ⟨?_, ?_⟩
  · rw [hs, score_eq, if_neg h6]
  · rw [hr, riskLevel_score, if_neg h1, if_neg h3]

theorem score_floor_witness :
    (summarize (List.replicate 7 (exampleApproval "0xA"))).score = 0 ∧
      (summarize (List.replicate 7 (exampleApproval "0xA"))).riskLevel = "High" :=
  score_floor (List.replicate 7 mergedExampleRecord)
    (summarize (List.replicate 7 (exampleApproval "0xA"))) rfl (by decide)

/-- C19: the risk level of the report is `"Low"` exactly when `highCount ≤ 1`,
`"Medium"` exactly when `highCount` is 2 or 3 and `"High"` exactly when
`highCount ≥ 4`; the score is one of 100, 85, 70, 55, 40, 25, 10, 0. -/
theorem riskLevel_thresholds (raw : List Val) (rep : Report) (h : report raw = .ok rep) :
    (rep.riskLevel = "Low" ↔ highCount rep.approvals ≤ 1) ∧
      (rep.riskLevel = "Medium" ↔
        highCount rep.approvals = 2 ∨ highCount rep.approvals = 3) ∧
      (rep.riskLevel = "High" ↔ 4 ≤ highCount rep.approvals) ∧
      (rep.score = 100 ∨ rep.score = 85 ∨ rep.score = 70 ∨ rep.score = 55 ∨
        rep.score = 40 ∨ rep.score = 25 ∨ rep.score = 10 ∨ rep.score = 0) := by
  obtain ⟨-, hs, hr, -⟩ := report_fields raw rep h
  rw [hs, hr, riskLevel_score]
  refine ⟨?_, ?_, ?_, score_values _⟩
  · by_cases h1 : highCount rep.approvals ≤ 1
    · simp [h1]
    · by_cases h3 : highCount rep.approvals ≤ 3 <;> simp [h1, h3]
  · by_cases h1 : highCount rep.approvals ≤ 1
    · simp only [h1, if_true]
      exact ⟨fun hne => absurd hne (by decide), fun hb => by omega⟩
    · by_cases h3 : highCount rep.approvals ≤ 3
      · simp only [h1, h3, if_true, if_false, true_iff]
        omega
      · simp only [h1, h3, if_false]
        exact ⟨fun hne => absurd hne (by decide), fun hb => by omega⟩
  · by_cases h1 : highCount rep.approvals ≤ 1
    · simp only [h1, if_true]
      exact ⟨fun hne => absurd hne (by decide), fun hb => by omega⟩
    · by_cases h3 : highCount rep.approvals ≤ 3
      · simp only [h1, h3, if_true, if_false]
        exact ⟨fun hne => absurd hne (by decide), fun hb => by omega⟩
      · simp only [h1, h3, if_false, true_iff]
        omega

theorem riskLevel_thresholds_witness :
    (summarize [exampleApproval "0xA"]).riskLevel = "Low" ↔
      highCount (summarize [exampleApproval "0xA"]).approvals ≤ 1 :=
  (riskLevel_thresholds [mergedExampleRecord] (summarize [exampleApproval "0xA"]) rfl).1

theorem items_of_result (data : Val) (xs : List Val)
    (h : optGet data "result" = .arr xs) : items data = xs := by
  simp [items, h]

theorem items_of_array (xs : List Val) : items (.arr xs) = xs := rfl

theorem items_of_other (data : Val) (hr : (optGet data "result").isArray = false)
    (hd : data.isArray = false) : items data = [] := by
  unfold items
  cases hres : optGet data "result" with
  | arr ys => simp [hres, Val.isArray] at hr
  | _ => cases data <;> first | rfl | simp [Val.isArray] at hd

theorem length_of_validAddress (a : String) (h : validAddress a = true) :
    a.data.length ≠ 0 := by
  intro h0
  have hnil : a.data = [] := List.length_eq_zero.mp h0
  simp [validAddress, hnil] at h

theorem handler_of_valid (key : String) (fetch : String → String → Upstream) (q : Query)
    (hv : validAddress (q.address.getD "") = true) (hk : key.data.length ≠ 0) :
    handler (some key) fetch q =
      match fetch (url (q.address.getD "") (chain (q.net.getD "bsc"))) key with
      | .rejected e => serverError e
      | .notOk status text =>
        { status := 502
          body := [("error", .text "Moralis failed"), ("status", .number status),
                   ("body", .units (slice300 (text.getD "")))] }
      | .badBody e => serverError e
      | .ok data =>
        match report (items data) with
        | .error e => serverError e.toThrown
        | .ok rep => success rep := by
  have hne : (q.address.getD "").length ≠ 0 := length_of_validAddress _ hv
  have hk' : key.length ≠ 0 := hk
  simp [handler, hv, hne, hk']

theorem handler_of_ok (key : String) (fetch : String → String → Upstream) (q : Query)
    (data : Val) (hv : validAddress (q.address.getD "") = true) (hk : key.data.length ≠ 0)
    (hf : fetch (url (q.address.getD "") (chain (q.net.getD "bsc"))) key = .ok data) :
    handler (some key) fetch q =
      match report (items data) with
      | .error e => serverError e.toThrown
      | .ok rep => success rep := by
  rw [handler_of_valid key fetch q hv hk, hf]

/-- C16: the list that is normalized is the value of the body's `result` field
when that is an array, else the body when the body is an array, else the empty
list; a body of any other shape gives the report of the empty list, and a
well-formed request answers it with status 200. -/
theorem items_shapes (data : Val) :
    (∀ xs, optGet data "result" = .arr xs → items data = xs) ∧
      ((optGet data "result").isArray = false → ∀ xs, data = .arr xs → items data = xs) ∧
      ((optGet data "result").isArray = false → data.isArray = false →
        items data = [] ∧ report (items data) = .ok emptyReport) ∧
      (∀ (key : String) (fetch : String → String → Upstream) (q : Query),
        validAddress (q.address.getD "") = true → key.data.length ≠ 0 →
        fetch (url (q.address.getD "") (chain (q.net.getD "bsc"))) key = .ok data →
        handler (some key) fetch q =
            (match report (items data) with
              | .error e => serverError e.toThrown
              | .ok rep => success rep) ∧
          ((optGet data "result").isArray = false → data.isArray = false →
            handler (some key) fetch q = success emptyReport)) := by
  refine ⟨fun xs h => items_of_result data xs h, ?_, ?_, ?_⟩
  · rintro - xs rfl
    exact items_of_array xs
  · intro hr hd
    rw [items_of_other data hr hd]
    exact ⟨rfl, rfl⟩
  · intro key fetch q hv hk hf
    have hh := handler_of_ok key fetch q data hv hk hf
    refine ⟨hh, ?_⟩
    intro hr hd
    rw [hh, items_of_other data hr hd]
    rfl

theorem items_shapes_witness :
    handler (some "key") (fun _ _ => .ok (.obj [("result", .str "none")])) sampleQuery =
      success emptyReport :=
  ((items_shapes (.obj [("result", .str "none")])).2.2.2 "key"
    (fun _ _ => .ok (.obj [("result", .str "none")])) sampleQuery
    (by decide) (by decide) rfl).2 rfl rfl

/-- C17: for a well-formed request with an API key, a failed upstream call
(a rejected `fetch`, a response that is not ok, or a body that does not parse)
is answered with status 502 or 500 and a body that has an `error` entry and
none of `score`, `riskLevel`, `tips`, `approvals`; and any response with status
200 carries the report of the body of a successful upstream call. -/
theorem upstream_failure (env : Option String) (fetch : String → String → Upstream)
    (q : Query) :
    (∀ key, validAddress (q.address.getD "") = true → env = some key →
        key.data.length ≠ 0 →
        (fetch (url (q.address.getD "") (chain (q.net.getD "bsc"))) key).failed = true →
        ((handler env fetch q).status = 502 ∨ (handler env fetch q).status = 500) ∧
          (handler env fetch q).hasKey "error" = true ∧
          (handler env fetch q).hasKey "score" = false ∧
          (handler env fetch q).hasKey "riskLevel" = false ∧
          (handler env fetch q).hasKey "tips" = false ∧
          (handler env fetch q).hasKey "approvals" = false) ∧
      ((handler env fetch q).status = 200 →
        ∃ key data rep, env = some key ∧
          fetch (url (q.address.getD "") (chain (q.net.getD "bsc"))) key = .ok data ∧
          report (items data) = .ok rep ∧
          handler env fetch q = success rep) := by
  constructor
  · rintro key hv rfl hk hfail
    rw [handler_of_valid key fetch q hv hk]
    cases hf : fetch (url (q.address.getD "") (chain (q.net.getD "bsc"))) key with
    | rejected e => exact ⟨Or.inr rfl, rfl, rfl, rfl, rfl, rfl⟩
    | notOk status text => exact ⟨Or.inl rfl, rfl, rfl, rfl, rfl, rfl⟩
    | badBody e => exact ⟨Or.inr rfl, rfl, rfl, rfl, rfl, rfl⟩
    | ok data => simp [hf, Upstream.failed] at hfail
  · intro h200
    by_cases hv : validAddress (q.address.getD "") = true
    · have hne : (q.address.getD "").length ≠ 0 := length_of_validAddress _ hv
      cases env with
      | none => simp [handler, hv, hne] at h200
      | some key =>
        by_cases hk : key.length = 0
        · simp [handler, hv, hne, hk] at h200
        · have hh := handler_of_valid key fetch q hv hk
          rw [hh] at h200
          cases hf : fetch (url (q.address.getD "") (chain (q.net.getD "bsc"))) key with
          | rejected e => simp [hf, serverError] at h200
          | notOk status text => simp [hf] at h200
          | badBody e => simp [hf, serverError] at h200
          | ok data =>
            cases hrep : report (items data) with
            | error e => simp [hf, hrep, serverError] at h200
            | ok rep =>
              refine ⟨key, data, rep, rfl, hf, hrep, ?_⟩
              rw [handler_of_ok key fetch q data hv hk hf, hrep]
    · have hv' : validAddress (q.address.getD "") = false := by simpa using hv
      simp [handler, hv'] at h200

theorem upstream_failure_witness :
    ((handler (some "key") unavailable sampleQuery).status = 502 ∨
        (handler (some "key") unavailable sampleQuery).status = 500) ∧
      (handler (some "key") unavailable sampleQuery).hasKey "error" = true ∧
      (handler (some "key") unavailable sampleQuery).hasKey "score" = false ∧
      (handler (some "key") unavailable sampleQuery).hasKey "riskLevel" = false ∧
      (handler (some "key") unavailable sampleQuery).hasKey "tips" = false ∧
      (handler (some "key") unavailable sampleQuery).hasKey "approvals" = false :=
  (upstream_failure (some "key") unavailable sampleQuery).1 "key" (by decide) rfl
    (by decide) rfl

theorem approvals_append_ok_iff (l₁ l₂ : List Val) (out : List Approval) :
    approvals (l₁ ++ l₂) = .ok out ↔
      ∃ o₁ o₂, approvals l₁ = .ok o₁ ∧ approvals l₂ = .ok o₂ ∧ out = o₁ ++ o₂ := by
  induction l₁ generalizing out with
  | nil =>
    constructor
    · intro h
      exact ⟨[], out, rfl, h, rfl⟩
    · rintro ⟨o₁, o₂, h₁, h₂, rfl⟩
      have : o₁ = [] := by simpa [approvals] using h₁.symm
      subst this
      exact h₂
  | cons x rest ih =>
    rw [List.cons_append, approvals_cons_ok_iff]
    constructor
    · rintro ⟨a, as, hx, hr, rfl⟩
      obtain ⟨o₁, o₂, h₁, h₂, rfl⟩ := (ih as).mp hr
      exact ⟨a :: o₁, o₂, (approvals_cons_ok_iff x rest _).mpr ⟨a, o₁, hx, h₁, rfl⟩, h₂, rfl⟩
    · rintro ⟨o₁, o₂, h₁, h₂, rfl⟩
      obtain ⟨a, as, hx, hr, rfl⟩ := (approvals_cons_ok_iff x rest o₁).mp h₁
      exact ⟨a, as ++ o₂, hx, (ih _).mpr ⟨as, o₂, hr, h₂, rfl⟩, rfl⟩

theorem digit_facts (c : Char) (h : c ∈ digitChars) : c.toLower = c ∧ c ≠ 'i' := by
  simp only [digitChars, List.mem_cons, List.mem_singleton, List.not_mem_nil, or_false] at h
  rcases h with rfl | rfl | rfl | rfl | rfl | rfl | rfl | rfl | rfl | rfl <;> decide

theorem isInfinite_of_digitsOnly (s : String) (hd : digitsOnly s = true) :
    isInfinite (toLowerCase s) = false := by
  have hmem : ∀ c ∈ s.data, c ∈ digitChars := by
    intro c hc
    have := List.all_eq_true.mp hd c hc
    simpa using this
  have hlow : toLowerCase s = s := by
    unfold toLowerCase
    have : s.data.map Char.toLower = s.data := by
      conv_rhs => rw [← List.map_id s.data]
      exact List.map_congr_left (fun c hc => (digit_facts c (hmem c hc)).1)
    rw [this]
  have hi : 'i' ∉ s.data := fun hc => (digit_facts _ (hmem _ hc)).2 rfl
  rw [hlow]
  cases hinf : isInfinite s with
  | false => rfl
  | true =>
    exfalso
    rcases (isInfinite_iff s).mp hinf with h | h | h
    · apply hi
      rw [h]
      decide
    · have h' := hmem '∞' (by rw [h]; decide)
      exact absurd h' (by decide)
    · exact hi (h.subset (by decide))

/-- C18: a record whose allowance text consists only of decimal digits
normalizes to an approval with flags `"—"` and risk `"Low"`, and putting the
record anywhere into a list leaves the score of the report as it was. -/
theorem digits_not_flagged (x : Val) (s : String) (h : allowance x = .ok s)
    (hd : digitsOnly s = true) :
    ∃ a, normalize x = .ok a ∧ a.allowance = s ∧ a.flags = .str "—" ∧ a.risk = "Low" ∧
      ∀ l₁ l₂ rep, report (l₁ ++ l₂) = .ok rep →
        ∃ rep', report (l₁ ++ x :: l₂) = .ok rep' ∧ rep'.score = rep.score := by
  have hinf := isInfinite_of_digitsOnly s hd
  have hrisk : risk (flagsArr s) = "Low" := (risk_flagsArr s).2.mpr hinf
  refine ⟨_, normalize_of_allowance x s h, rfl, (flags_flagsArr s).2.mpr hinf, hrisk, ?_⟩
  intro l₁ l₂ rep hrep
  obtain ⟨out, hout, rfl⟩ := (report_ok_iff _ rep).mp hrep
  obtain ⟨o₁, o₂, h₁, h₂, rfl⟩ := (approvals_append_ok_iff l₁ l₂ out).mp hout
  obtain ⟨a, ha, hx⟩ : ∃ a : Approval, a.risk = "Low" ∧ normalize x = .ok a :=
    ⟨_, hrisk, normalize_of_allowance x s h⟩
  have hnew := (approvals_append_ok_iff l₁ (x :: l₂) _).mpr
    ⟨o₁, _, h₁, (approvals_cons_ok_iff x l₂ _).mpr ⟨a, o₂, hx, h₂, rfl⟩, rfl⟩
  refine ⟨_, (report_ok_iff _ _).mpr ⟨_, hnew, rfl⟩, ?_⟩
  show score (high (o₁ ++ a :: o₂)) = score (high (o₁ ++ o₂))
  congr 1
  have hlow : isHigh a = false := by
    simp only [isHigh, ha]
    decide
  simp [high, List.filter_cons, hlow]

theorem digits_not_flagged_witness :
    ∃ a, normalize hugeRecord = .ok a ∧ a.allowance = maxUint256 ∧ a.flags = .str "—" ∧
      a.risk = "Low" ∧
      ∀ l₁ l₂ rep, report (l₁ ++ l₂) = .ok rep →
        ∃ rep', report (l₁ ++ hugeRecord :: l₂) = .ok rep' ∧ rep'.score = rep.score :=
  digits_not_flagged hugeRecord maxUint256 rfl (by decide)

theorem approvals_forall₂ (raw : List Val) (out : List Approval)
    (h : approvals raw = .ok out) :
    List.Forall₂ (fun x a => normalize x = .ok a) raw out := by
  induction raw generalizing out with
  | nil =>
    have : out = [] := by simpa [approvals] using h.symm
    subst this
    exact List.Forall₂.nil
  | cons x rest ih =>
    obtain ⟨a, as, hx, hr, rfl⟩ := (approvals_cons_ok_iff x rest out).mp h
    exact List.Forall₂.cons hx (ih as hr)

theorem approvals_perm (raw' raw : List Val) (hp : raw'.Perm raw) :
    ∀ out, approvals raw = .ok out →
      ∃ out', approvals raw' = .ok out' ∧ (raw'.zip out').Perm (raw.zip out) := by
  induction hp with
  | nil =>
    intro out h
    exact ⟨out, h, List.Perm.refl _⟩
  | cons x _ ih =>
    intro out h
    obtain ⟨a, as, hx, hr, rfl⟩ := (approvals_cons_ok_iff _ _ out).mp h
    obtain ⟨as', hr', hz⟩ := ih as hr
    exact ⟨a :: as', (approvals_cons_ok_iff _ _ _).mpr ⟨a, as', hx, hr', rfl⟩,
      by simpa using hz.cons (x, a)⟩
  | swap x y l =>
    intro out h
    obtain ⟨a, as, hx, hr, rfl⟩ := (approvals_cons_ok_iff _ _ out).mp h
    obtain ⟨b, bs, hy, hr', rfl⟩ := (approvals_cons_ok_iff _ _ as).mp hr
    refine ⟨b :: a :: bs, ?_, ?_⟩
    · exact (approvals_cons_ok_iff _ _ _).mpr
        ⟨b, a :: bs, hy, (approvals_cons_ok_iff _ _ _).mpr ⟨a, bs, hx, hr', rfl⟩, rfl⟩
    · simpa using List.Perm.swap (x, a) (y, b) (l.zip bs)
  | trans _ _ ih₁ ih₂ =>
    intro out h
    obtain ⟨mid, hm, hz₂⟩ := ih₂ out h
    obtain ⟨out', ho, hz₁⟩ := ih₁ mid hm
    exact ⟨out', ho, hz₁.trans hz₂⟩

/-- C20: for a permutation of a raw list that has a report, the permuted list
has a report with the same score, risk level and tips, and its approvals are
the original approvals permuted as the records were: the record-approval pairs
are the same, and wherever a record stands in both lists its approval stands
at the same places. -/
theorem report_perm (raw raw' : List Val) (rep : Report) (hp : raw'.Perm raw)
    (h : report raw = .ok rep) :
    ∃ rep', report raw' = .ok rep' ∧
      rep'.score = rep.score ∧ rep'.riskLevel = rep.riskLevel ∧ rep'.tips = rep.tips ∧
      rep'.approvals.Perm rep.approvals ∧
      (raw'.zip rep'.approvals).Perm (raw.zip rep.approvals) ∧
      ∀ (i j : Nat) (hi : i < raw'.length) (hj : j < raw.length)
        (hi' : i < rep'.approvals.length) (hj' : j < rep.approvals.length),
        raw'[i] = raw[j] → rep'.approvals[i] = rep.approvals[j] := by
  obtain ⟨out, hout, rfl⟩ := (report_ok_iff raw rep).mp h
  obtain ⟨out', hout', hz⟩ := approvals_perm raw' raw hp out hout
  have hf := approvals_forall₂ raw out hout
  have hf' := approvals_forall₂ raw' out' hout'
  have hperm : out'.Perm out := by
    have := hz.map Prod.snd
    rwa [List.map_snd_zip _ _ (le_of_eq hf'.length_eq.symm),
      List.map_snd_zip _ _ (le_of_eq hf.length_eq.symm)] at this
  have hhigh : high out' = high out := (hperm.filter isHigh).length_eq
  refine ⟨summarize out', (report_ok_iff _ _).mpr ⟨out', hout', rfl⟩, ?_, ?_, ?_, hperm, hz, ?_⟩
  · show score (high out') = score (high out)
    rw [hhigh]
  · show riskLevel (score (high out')) = riskLevel (score (high out))
    rw [hhigh]
  · show tips (high out') = tips (high out)
    rw [hhigh]
  · intro i j hi hj hi' hj' heq
    have h₁ : normalize raw'[i] = .ok out'[i] := hf'.get hi hi'
    have h₂ : normalize raw[j] = .ok out[j] := hf.get hj hj'
    rw [heq, h₂] at h₁
    injection h₁ with h₁
    exact h₁.symm

theorem report_perm_witness :
    ∃ rep', report [plainRecord, mergedExampleRecord] = .ok rep' ∧
      rep'.score = 85 ∧ rep'.riskLevel = "Low" ∧
      rep'.tips = ["Revoke high-risk approvals first (1)."] :=
  (report_perm [mergedExampleRecord, plainRecord] [plainRecord, mergedExampleRecord]
    (summarize [exampleApproval "0xA",
      { token := .str "0xA", spender := .str "0xB", allowance := "1000",
        symbol := .str "—", verified := "—", lastUpdated := .str "—",
        flags := .str "—", risk := "Low" }])
    (List.Perm.swap _ _ _) rfl).imp
    (fun _ hr => ⟨hr.1, hr.2.1, hr.2.2.1, hr.2.2.2.1⟩)

end GetApprovals
